import Mathlib

/-!
Verification development for the cinematch real-time hybrid recommendation
pipeline.  The definitions below are shallow embeddings of the TypeScript
sources: `MatrixFactorization` (latent factor model), `MLModelUpdateQueue`
(priority queue), `OnlineLearningService` (coordinator) and
`HybridRecommendationEngine` (hybrid scorer).  JavaScript numbers are
modelled as rationals, `Map` objects as functions to `Option`, and the
opaque tensorflow network inside the model as an abstract prediction
function carried in the state.
-/

namespace Cinematch

/-! ### Latent factor model (`MatrixFactorization`) -/

/-- A feedback record as consumed by training (`UserRating`). -/
structure URating where
  userId : String
  movieId : ℤ
  rating : ℚ
deriving DecidableEq

/-- Errors thrown by the model (`'Model not built'`, `'Model is already training'`). -/
inductive MFError where
  | notBuilt
  | alreadyTraining
deriving DecidableEq

/-- State of a `MatrixFactorization` instance.  The tensorflow layers model is
abstracted by the flag `modelBuilt` together with `rawPredict`, the numeric
function the network computes on a pair of internal indices; the two
identifier-to-index `Map`s are total functions to `Option ℕ`. -/
structure MFState where
  modelBuilt : Bool
  isTraining : Bool
  userIndexMap : String → Option ℕ
  movieIndexMap : ℤ → Option ℕ
  rawPredict : ℕ → ℕ → ℚ

/-- `Map.set`: point update of an identifier-to-index map. -/
def setIdx {α : Type} [DecidableEq α] (m : α → Option ℕ) (k : α) (v : ℕ) :
    α → Option ℕ :=
  fun x => if x = k then some v else m x

/-- Helper for first-occurrence deduplication (JS `new Set(...)` iterates in
first-insertion order). -/
def firstDedupAux {α : Type} [DecidableEq α] (seen : List α) : List α → List α
  | [] => []
  | x :: xs =>
      if x ∈ seen then firstDedupAux seen xs
      else x :: firstDedupAux (x :: seen) xs

/-- `[...new Set(list)]`: the distinct elements of a list in first-occurrence
order. -/
def firstDedup {α : Type} [DecidableEq α] (l : List α) : List α :=
  firstDedupAux [] l

/-- The `forEach((id, index) => map.set(id, index))` loop of
`prepareTrainingData`: assign consecutive indices, starting at `i`, to the
listed identifiers, overwriting any previous assignment. -/
def assignFrom {α : Type} [DecidableEq α] (i : ℕ) (ids : List α)
    (m : α → Option ℕ) : α → Option ℕ :=
  match ids with
  | [] => m
  | k :: ks => assignFrom (i + 1) ks (setIdx m k i)

/-- `MatrixFactorization.prepareTrainingData`, restricted to its effect on the
identifier maps: the distinct users and movies of the batch are assigned
indices `0, 1, ...` in first-occurrence order via `Map.set`. -/
def prepareTrainingData (rs : List URating) (s : MFState) : MFState :=
  { s with
    userIndexMap :=
      assignFrom 0 (firstDedup (rs.map (fun r => r.userId))) s.userIndexMap
    movieIndexMap :=
      assignFrom 0 (firstDedup (rs.map (fun r => r.movieId))) s.movieIndexMap }

/-- `MatrixFactorization.train`: throws when the model is unbuilt or another
training run is active, otherwise runs data preparation (the numeric fit is
external to the state modelled here) and finishes with `isTraining` reset. -/
def train (s : MFState) (rs : List URating) : Except MFError MFState :=
  if s.modelBuilt = false then Except.error MFError.notBuilt
  else if s.isTraining then Except.error MFError.alreadyTraining
  else Except.ok (prepareTrainingData rs s)

/-- `MatrixFactorization.incrementalTrain`: throws when unbuilt; a logged
no-op when a training run is active; otherwise runs data preparation and a
single-epoch fit (the numeric fit is abstracted). -/
def incrementalTrain (s : MFState) (rs : List URating) :
    Except MFError MFState :=
  if s.modelBuilt = false then Except.error MFError.notBuilt
  else if s.isTraining then Except.ok s
  else Except.ok (prepareTrainingData rs s)

/-- The cold-start fallback rating (`6.0`, the domain mean on the 1–10 scale). -/
def fallbackRating : ℚ := 6

/-- `Math.max(1, Math.min(10, x))`: clamp a prediction to the rating range. -/
def clampRating (x : ℚ) : ℚ := max 1 (min 10 x)

/-- `MatrixFactorization.predict`: throws when unbuilt; returns the fallback
when either identifier has no internal index; otherwise the clamped network
output on the two indices. -/
def predict (s : MFState) (userId : String) (movieId : ℤ) :
    Except MFError ℚ :=
  if s.modelBuilt = false then Except.error MFError.notBuilt
  else
    match s.userIndexMap userId, s.movieIndexMap movieId with
    | some ui, some mi => Except.ok (clampRating (s.rawPredict ui mi))
    | some _, none => Except.ok fallbackRating
    | none, _ => Except.ok fallbackRating

/-- The `filter` predicate of `batchPredict`: a pair is valid when both
identifiers have internal indices. -/
def isValidPair (s : MFState) (p : String × ℤ) : Bool :=
  (s.userIndexMap p.1).isSome && (s.movieIndexMap p.2).isSome

/-- `MatrixFactorization.batchPredict`: invalid pairs are filtered out; when
no valid pair remains the result is the input length worth of fallback
values, otherwise the clamped predictions of the valid pairs only. -/
def batchPredict (s : MFState) (pairs : List (String × ℤ)) :
    Except MFError (List ℚ) :=
  if s.modelBuilt = false then Except.error MFError.notBuilt
  else
    let valid := pairs.filter (fun p => isValidPair s p)
    if valid.length = 0 then
      Except.ok (List.replicate pairs.length fallbackRating)
    else
      Except.ok (valid.map (fun p =>
        clampRating (s.rawPredict ((s.userIndexMap p.1).getD 0)
          ((s.movieIndexMap p.2).getD 0))))

/-- A freshly built model: maps empty, not training, abstract network
returning a constant. -/
def builtState : MFState :=
  { modelBuilt := true
    isTraining := false
    userIndexMap := fun _ => none
    movieIndexMap := fun _ => none
    rawPredict := fun _ _ => 7 }

/-! ### `MLModelUpdateQueue` (priority-insertion queue, part with string priorities) -/

/-- A queued update job of `MLModelUpdateQueue`; `arrival` models the
timestamp stamped at enqueue time (strictly increasing per enqueue). -/
structure QJob where
  priority : String
  arrival : ℕ
deriving DecidableEq

/-- `MLModelUpdateQueue.getPriorityValue`: the `switch` with a default branch
returning `1` for any string other than the three declared literals. -/
def getPriorityValue (priority : String) : ℕ :=
  if priority = r"high" then 3
  else if priority = r"medium" then 2
  else if priority = r"low" then 1
  else 1

/-- The insertion loop of `addUpdateJob`: find the first queued job of
strictly lower priority value and splice the new job in before it (append at
the end when none exists). -/
def insertJob (j : QJob) : List QJob → List QJob
  | [] => [j]
  | x :: xs =>
      if getPriorityValue x.priority < getPriorityValue j.priority then
        j :: x :: xs
      else
        x :: insertJob j xs

/-- A sequence of `addUpdateJob` calls with the given priorities, stamping
arrival indices `n, n+1, ...`. -/
def enqueueFrom (n : ℕ) (ps : List String) (q : List QJob) : List QJob :=
  match ps with
  | [] => q
  | p :: rest => enqueueFrom (n + 1) rest (insertJob ⟨p, n⟩ q)

/-- The `while`/`shift` loop of `processJobs`: jobs are removed from the head
one by one, so the processing order is the queue order. -/
def drainOrder : List QJob → List QJob
  | [] => []
  | j :: rest => j :: drainOrder rest

/-- The dequeue-order contract: any earlier job has a strictly higher
priority value than a later one, or the same value and an earlier arrival. -/
def qRel (a b : QJob) : Prop :=
  getPriorityValue b.priority < getPriorityValue a.priority ∨
    (getPriorityValue a.priority = getPriorityValue b.priority ∧
      a.arrival < b.arrival)

instance : DecidableRel qRel := fun a b => by
  unfold qRel
  infer_instance

/-! ### `OnlineLearningService` (coordinator, update queue with eviction) -/

/-- The declared priority tiers of a `ModelUpdateJob` as typed in the
coordinator (`'low' | 'medium' | 'high'`). -/
inductive Priority where
  | low
  | medium
  | high
deriving DecidableEq

/-- The `priorityWeights` object of `sortQueueByPriority`. -/
def priorityWeight : Priority → ℕ
  | Priority.high => 3
  | Priority.medium => 2
  | Priority.low => 1

/-- A `ModelUpdateJob` held in the coordinator's update queue. -/
structure OLJob where
  userId : String
  movieId : ℤ
  value : ℚ
  priority : Priority
  timestamp : ℕ
deriving DecidableEq

/-- The comparator of `sortQueueByPriority` as a strict before-relation:
higher weight first, equal weights broken by earlier timestamp. -/
def jobBefore (a b : OLJob) : Bool :=
  (priorityWeight b.priority < priorityWeight a.priority : Bool) ||
    ((priorityWeight a.priority == priorityWeight b.priority) &&
      (a.timestamp < b.timestamp : Bool))

/-- Stable insertion used to model the comparator sort: the new job is
placed before the first element it strictly precedes. -/
def insSorted (a : OLJob) : List OLJob → List OLJob
  | [] => [a]
  | b :: rest => if jobBefore a b then a :: b :: rest else b :: insSorted a rest

/-- `OnlineLearningService.sortQueueByPriority`: stable sort of the queue by
descending priority weight, then ascending timestamp. -/
def sortQueueByPriority (l : List OLJob) : List OLJob :=
  l.foldl (fun acc j => insSorted j acc) []

/-- Lines 86–95 of `processNewRating`: push the job, re-sort by priority,
then if the length exceeds `maxQueueSize` keep only the final
`maxQueueSize` entries (`slice(-maxQueueSize)`). -/
def enqueueWithEviction (maxQueueSize : ℕ) (q : List OLJob) (j : OLJob) :
    List OLJob :=
  let q1 := sortQueueByPriority (q ++ [j])
  if maxQueueSize < q1.length then q1.drop (q1.length - maxQueueSize) else q1

/-- Coordinator state: the update queue, configuration, the processing and
timer flags, the point-prediction cache (keyed by user and movie), and the
owned latent factor model. -/
structure OLState where
  queue : List OLJob
  batchSize : ℕ
  maxQueueSize : ℕ
  updateThreshold : ℕ
  isProcessing : Bool
  timerOn : Bool
  cache : String × ℤ → Option ℚ
  mf : MFState

/-- `OnlineLearningService.processBatchUpdate`: a no-op when already
processing or the queue is empty; otherwise splice off the first
`min(batchSize, length)` jobs, feed them to `incrementalTrain` (a failure
drops the batch), and invalidate the per-user cache entries of every user
in the batch.  `isProcessing` is set for the duration and reset in the
`finally`, so the net flag is unchanged. -/
def processBatchUpdate (s : OLState) : OLState :=
  if s.isProcessing || s.queue.isEmpty then s
  else
    let n := min s.batchSize s.queue.length
    let batch := s.queue.take n
    let rest := s.queue.drop n
    let ratings := batch.map (fun j => URating.mk j.userId j.movieId j.value)
    let mf1 := match incrementalTrain s.mf ratings with
      | Except.ok st => st
      | Except.error _ => s.mf
    let users := batch.map (fun j => j.userId)
    { s with
      queue := rest
      mf := mf1
      cache := fun km => if km.1 ∈ users then none else s.cache km }

/-- `OnlineLearningService.processNewRating`: write the rating through to the
point-prediction cache, enqueue the job with the capacity control of
`enqueueWithEviction`, then run an immediate batch update when the queue
reaches `updateThreshold` or the priority is high. -/
def processNewRating (s : OLState) (userId : String) (movieId : ℤ)
    (rating : ℚ) (priority : Priority) (ts : ℕ) : OLState :=
  let j : OLJob := ⟨userId, movieId, rating, priority, ts⟩
  let q2 := enqueueWithEviction s.maxQueueSize s.queue j
  let s1 := { s with
    cache := fun km => if km = (userId, movieId) then some rating else s.cache km
    queue := q2 }
  if s.updateThreshold ≤ q2.length ∨ priority = Priority.high then
    processBatchUpdate s1
  else s1

/-- `OnlineLearningService.shutdown`: stop the interval timer, then run one
`processBatchUpdate` when the queue is non-empty. -/
def shutdown (s : OLState) : OLState :=
  let s1 := { s with timerOn := false }
  if 0 < s1.queue.length then processBatchUpdate s1 else s1

/-! ### `HybridRecommendationEngine` (weights, combination, diversity) -/

/-- The four-component hybrid weight vector. -/
structure HybridWeights where
  content : ℚ
  collaborative : ℚ
  popularity : ℚ
  diversity : ℚ
deriving DecidableEq

/-- The slice of a `UserProfile` read by the engine: the rating history and
the preferred-genre list. -/
structure UserProfile where
  ratings : List ℚ
  genres : List ℕ
deriving DecidableEq

/-- `HybridRecommendationEngine.calculateUserDiversity`:
`min(1, genreCount / 20)`. -/
def calculateUserDiversity (p : UserProfile) : ℚ :=
  min 1 ((p.genres.length : ℚ) / 20)

/-- `HybridRecommendationEngine.calculateWeights`: four tiers keyed on the
rating count; the final tier computes the collaborative weight as
`min(0.7, 0.4 + (ratingCount - 100) * 0.001)` and bumps the diversity
weight for high-diversity users. -/
def calculateWeights (p : UserProfile) : HybridWeights :=
  let ratingCount := p.ratings.length
  let diversity := calculateUserDiversity p
  if ratingCount < 5 then
    { content := 0.4, collaborative := 0.1, popularity := 0.4, diversity := 0.1 }
  else if ratingCount < 20 then
    { content := 0.5, collaborative := 0.3, popularity := 0.15, diversity := 0.05 }
  else if ratingCount < 100 then
    { content := 0.4, collaborative := 0.5, popularity := 0.05, diversity := 0.05 }
  else
    let collaborativeWeight :=
      min 0.7 (0.4 + ((ratingCount : ℚ) - 100) * 0.001)
    { content := 0.3
      collaborative := collaborativeWeight
      popularity := 0.05
      diversity := if (0.7 : ℚ) < diversity then 0.1 else 0.05 }

/-- Sum of the four hybrid weights. -/
def wSum (w : HybridWeights) : ℚ :=
  w.content + w.collaborative + w.popularity + w.diversity

/-- A candidate score (`RecommendationScore` restricted to the fields the
combination reads and writes). -/
structure RecScore where
  movieId : ℤ
  score : ℚ
deriving DecidableEq

/-- The per-movie component triple held in `movieScoreMap`. -/
structure ScoreTriple where
  content : ℚ
  collaborative : ℚ
  popularity : ℚ
deriving DecidableEq

/-- `Map.set` / in-place mutation of one entry of `movieScoreMap`, keeping
insertion order: replace the first entry with the key, or append. -/
def upsertScore (k : ℤ) (f : Option ScoreTriple → ScoreTriple) :
    List (ℤ × ScoreTriple) → List (ℤ × ScoreTriple)
  | [] => [(k, f none)]
  | (k2, v) :: rest =>
      if k2 = k then (k, f (some v)) :: rest
      else (k2, v) :: upsertScore k f rest

/-- `HybridRecommendationEngine.combineScores`: fold the three component
lists into `movieScoreMap` (missing components default to `0`), then emit
the weighted sum per movie in map-insertion order. -/
def combineScores (contentScores collaborativeScores popularityScores :
    List RecScore) (w : HybridWeights) : List RecScore :=
  let m1 := contentScores.foldl
    (fun m sc => upsertScore sc.movieId (fun _ => ⟨sc.score, 0, 0⟩) m) []
  let m2 := collaborativeScores.foldl
    (fun m sc => upsertScore sc.movieId (fun old =>
      match old with
      | some t => { t with collaborative := sc.score }
      | none => ⟨0, sc.score, 0⟩) m) m1
  let m3 := popularityScores.foldl
    (fun m sc => upsertScore sc.movieId (fun old =>
      match old with
      | some t => { t with popularity := sc.score }
      | none => ⟨0, 0, sc.score⟩) m) m2
  m3.map (fun kv =>
    ⟨kv.1, kv.2.content * w.content + kv.2.collaborative * w.collaborative +
      kv.2.popularity * w.popularity⟩)

/-- The per-element body of `applyDiversityBoost`: each candidate receives
`Math.random() * diversityWeight` on top of its score; the draws of the
unseeded generator during one run are modelled as the stream `rand`,
consumed one value per candidate. -/
def applyDiversityBoostAux (rand : ℕ → ℚ) (dW : ℚ) :
    List RecScore → ℕ → List RecScore
  | [], _ => []
  | sc :: rest, i =>
      { sc with score := sc.score + rand i * dW } ::
        applyDiversityBoostAux rand dW rest (i + 1)

/-- `HybridRecommendationEngine.applyDiversityBoost`: returns the scores
unchanged when the diversity weight is `0`, otherwise adds a fresh random
boost (bounded by the weight) to every candidate.  The user profile is
received but its genre set is never used by the boost. -/
def applyDiversityBoost (rand : ℕ → ℚ) (scores : List RecScore)
    (_profile : UserProfile) (dW : ℚ) : List RecScore :=
  if dW = 0 then scores else applyDiversityBoostAux rand dW scores 0

/-! ### Concrete fixtures used by the theorems -/

/-- First training batch: two distinct users. -/
def batchA : List URating := [⟨r"a", 1, 5⟩, ⟨r"b", 1, 6⟩]

/-- Second training batch: only the second user again. -/
def batchB : List URating := [⟨r"b", 2, 7⟩]

/-- A built model that has seen exactly user `a` and movie `1`. -/
def seededState : MFState :=
  { modelBuilt := true
    isTraining := false
    userIndexMap := fun u => if u = r"a" then some 0 else none
    movieIndexMap := fun m => if m = 1 then some 0 else none
    rawPredict := fun _ _ => 7 }

/-- An old low-priority job (timestamp 0). -/
def lowJob : OLJob := ⟨r"u1", 1, 5, Priority.low, 0⟩

/-- A newer high-priority job (timestamp 1). -/
def highJob : OLJob := ⟨r"u2", 2, 5, Priority.high, 1⟩

/-- A coordinator with the default configuration (`batchSize 32`,
`maxQueueSize 1000`, `updateThreshold 10`), an empty queue and a built
model. -/
def idleCoordinator : OLState :=
  { queue := []
    batchSize := 32
    maxQueueSize := 1000
    updateThreshold := 10
    isProcessing := false
    timerOn := true
    cache := fun _ => none
    mf := builtState }

/-- A medium-priority job used to fill the queue. -/
def bulkJob : OLJob := ⟨r"u", 1, 5, Priority.medium, 0⟩

/-- The coordinator with 33 queued jobs, one more than the batch size. -/
def loadedCoordinator : OLState :=
  { idleCoordinator with queue := List.replicate 33 bulkJob }

/-- A user profile with 150 ratings (the expert tier) and no genre data. -/
def expertProfile : UserProfile := ⟨List.replicate 150 5, []⟩

/-- The hybrid score list produced by combining a single content score of
`1/2` under the new-user weights. -/
def diversityInput : List RecScore :=
  combineScores [⟨1, 1/2⟩] [] [] ⟨0.4, 0.1, 0.4, 0.1⟩

/-! ### Theorems for the claims -/

/-- C1 (counterexample): the identifier-to-index mapping is not append-only.
Training on a batch with users `a, b` assigns `b ↦ 1`; a later incremental
training call whose batch contains only `b` reassigns `b ↦ 0`, so a later
operation both changes the index of an already-seen identifier and reuses
index `0` for a different identifier. -/
theorem c1_counterexample :
    (Except.map (fun st => st.userIndexMap (r"b"))
      (incrementalTrain builtState batchA)).toOption = some (some 1) ∧
    (Except.map (fun st => st.userIndexMap (r"b"))
      (do
        let st1 ← incrementalTrain builtState batchA
        incrementalTrain st1 batchB)).toOption = some (some 0) := by
  decide

/-- C2 (code defect): with capacity 1, inserting a strictly newer
high-priority job into a queue holding one old low-priority job evicts the
high-priority job and keeps the low-priority one — the eviction keeps the
tail of the priority-descending sort, dropping exactly the jobs the
contract says must survive. -/
theorem c2_eviction_drops_newer_high_priority :
    enqueueWithEviction 1 [lowJob] highJob = [lowJob] ∧
    priorityWeight lowJob.priority < priorityWeight highJob.priority ∧
    lowJob.timestamp < highJob.timestamp := by
  decide

/-- C4 (code defect): the diversity adjustment is not deterministic.  For
the same component scores, weights and profile, two runs whose unseeded
random draws differ (`0` versus `1/2`) produce different score lists. -/
theorem c4_diversity_random_nondeterminism :
    applyDiversityBoost (fun _ => 0) diversityInput ⟨[], []⟩ (1/10) =
      [⟨1, 1/5⟩] ∧
    applyDiversityBoost (fun _ => 1/2) diversityInput ⟨[], []⟩ (1/10) =
      [⟨1, 1/4⟩] ∧
    applyDiversityBoost (fun _ => 0) diversityInput ⟨[], []⟩ (1/10) ≠
      applyDiversityBoost (fun _ => 1/2) diversityInput ⟨[], []⟩ (1/10) := by
  have h1 : applyDiversityBoost (fun _ => 0) diversityInput ⟨[], []⟩ (1/10) =
      [⟨1, 1/5⟩] := by
    norm_num [applyDiversityBoost, applyDiversityBoostAux, diversityInput,
      combineScores, upsertScore, List.foldl]
  have h2 : applyDiversityBoost (fun _ => 1/2) diversityInput ⟨[], []⟩ (1/10) =
      [⟨1, 1/4⟩] := by
    norm_num [applyDiversityBoost, applyDiversityBoostAux, diversityInput,
      combineScores, upsertScore, List.foldl]
  refine ⟨h1, h2, ?_⟩
  rw [h1, h2]
  simp only [ne_eq, List.cons.injEq, and_true, RecScore.mk.injEq, true_and]
  norm_num

/-- C5 (counterexample): `batchPredict` does not preserve the input length.
On a model that has seen `(a, 1)` but not `(b, 2)`, the two-pair input
yields a single prediction: the invalid pair is filtered out, not replaced
in place. -/
theorem c5_counterexample :
    (batchPredict seededState [(r"a", 1), (r"b", 2)]).toOption = some [7] ∧
    (Except.map List.length
      (batchPredict seededState [(r"a", 1), (r"b", 2)])).toOption = some 1 ∧
    ([(r"a", (1 : ℤ)), (r"b", 2)] : List (String × ℤ)).length = 2 := by
  decide

/-- C6 (counterexample): in the tier of 100 or more ratings the weight
vector does not sum to 1.  At 150 ratings the weights are
`{0.3, 0.45, 0.05, 0.05}`, summing to `0.85`. -/
theorem c6_counterexample :
    wSum (calculateWeights expertProfile) = 17/20 ∧ (17/20 : ℚ) ≠ 1 := by
  constructor
  · norm_num [wSum, calculateWeights, calculateUserDiversity, expertProfile,
      min_def]
  · norm_num

/-- C8 (code defect): shutdown does not drain the whole queue.  With 33
queued jobs and the default batch size 32, the single batch run by
`shutdown` leaves one job unprocessed (the timer is stopped as described). -/
theorem c8_shutdown_leaves_jobs :
    (shutdown loadedCoordinator).queue.length = 1 ∧
    (shutdown loadedCoordinator).timerOn = false ∧
    loadedCoordinator.queue.length = 33 := by
  decide

/-- C9 (counterexample): ingestion performs no rating-range validation.  A
rating of 100, far outside the declared 1–10 range, is both written to the
point-prediction cache and enqueued as an update job. -/
theorem c9_counterexample :
    (processNewRating idleCoordinator (r"u") 1 100 Priority.medium 0).queue =
      [⟨r"u", 1, 100, Priority.medium, 0⟩] ∧
    (processNewRating idleCoordinator (r"u") 1 100 Priority.medium 0).cache
      (r"u", 1) = some 100 ∧
    ¬ ((1 : ℚ) ≤ 100 ∧ (100 : ℚ) ≤ 10) := by
  decide

/-- Membership in an `insertJob` result: exactly the new job plus the old
queue. -/
theorem mem_insertJob {j x : QJob} {q : List QJob} :
    x ∈ insertJob j q ↔ x = j ∨ x ∈ q := by
  induction q with
  | nil => simp [insertJob]
  | cons b bs ih =>
    simp only [insertJob]
    split
    · simp [List.mem_cons]
    · simp only [List.mem_cons, ih]
      tauto

/-- Inserting a job whose arrival stamp is later than every queued job
preserves the dequeue-order invariant. -/
theorem pairwise_insertJob {j : QJob} {q : List QJob}
    (hq : List.Pairwise qRel q) (ha : ∀ x ∈ q, x.arrival < j.arrival) :
    List.Pairwise qRel (insertJob j q) := by
  induction q with
  | nil => simp [insertJob]
  | cons b bs ih =>
    rw [List.pairwise_cons] at hq
    obtain ⟨hb, hbs⟩ := hq
    simp only [insertJob]
    by_cases hc : getPriorityValue b.priority < getPriorityValue j.priority
    · rw [if_pos hc, List.pairwise_cons]
      refine ⟨?_, List.pairwise_cons.mpr ⟨hb, hbs⟩⟩
      intro y hy
      rcases List.mem_cons.mp hy with hyb | hybs
      · subst hyb
        exact Or.inl hc
      · rcases hb y hybs with hlt | ⟨heq, _⟩
        · exact Or.inl (lt_trans hlt hc)
        · exact Or.inl (heq ▸ hc)
    · rw [if_neg hc, List.pairwise_cons]
      have hle : getPriorityValue j.priority ≤ getPriorityValue b.priority :=
        Nat.le_of_not_lt hc
      refine ⟨?_, ih hbs (fun x hx => ha x (List.mem_cons_of_mem b hx))⟩
      intro y hy
      rcases mem_insertJob.mp hy with hyj | hybs
      · subst hyj
        rcases lt_or_eq_of_le hle with hlt | heq
        · exact Or.inl hlt
        · exact Or.inr ⟨heq.symm, ha b (List.mem_cons_self b bs)⟩
      · exact hb y hybs

/-- Any sequence of `addUpdateJob` calls on a queue satisfying the
dequeue-order invariant, with fresh (strictly increasing) arrival stamps,
preserves the invariant. -/
theorem pairwise_enqueueFrom (ps : List String) :
    ∀ (n : ℕ) (q : List QJob), List.Pairwise qRel q →
      (∀ x ∈ q, x.arrival < n) → List.Pairwise qRel (enqueueFrom n ps q) := by
  induction ps with
  | nil =>
    intro n q hq _
    exact hq
  | cons p rest ih =>
    intro n q hq ha
    simp only [enqueueFrom]
    apply ih (n + 1)
    · exact pairwise_insertJob hq ha
    · intro x hx
      rcases mem_insertJob.mp hx with hxj | hxq
      · subst hxj
        exact Nat.lt_succ_self n
      · exact Nat.lt_succ_of_lt (ha x hxq)

/-- C3: for every sequence of enqueued priorities, the queue built by
`addUpdateJob` (and hence the order in which `processJobs` shifts jobs off
the head) is ordered by priority ordinal descending, FIFO within equal
ordinals; in particular enqueuing `[high, medium, low, high]` drains as
`[high, high, medium, low]`, and the coordinator's comparator sort agrees
on the same example (timestamps `0, 3, 1, 2`). -/
theorem c3_dequeue_order :
    (∀ ps : List String, List.Pairwise qRel (enqueueFrom 0 ps [])) ∧
    (drainOrder (enqueueFrom 0 [r"high", r"medium", r"low", r"high"] [])).map
      (fun j => j.priority) = [r"high", r"high", r"medium", r"low"] ∧
    (sortQueueByPriority [⟨r"u1", 1, 5, Priority.high, 0⟩,
      ⟨r"u2", 2, 5, Priority.medium, 1⟩, ⟨r"u3", 3, 5, Priority.low, 2⟩,
      ⟨r"u4", 4, 5, Priority.high, 3⟩]).map (fun j => j.timestamp) =
      [0, 3, 1, 2] := by
  refine ⟨?_, by decide, by decide⟩
  intro ps
  exact pairwise_enqueueFrom ps 0 [] List.Pairwise.nil (by simp)

/-- C7: on a built model, whenever the user or the movie identifier has no
internal index, `predict` returns the fixed fallback value `6.0` — the
cold-start policy — and, being a function of the state and identifiers
only, it does so on every such call. -/
theorem c7_predict_fallback (s : MFState) (u : String) (m : ℤ)
    (hb : s.modelBuilt = true)
    (h : s.userIndexMap u = none ∨ s.movieIndexMap m = none) :
    predict s u m = Except.ok fallbackRating := by
  unfold predict
  rw [hb]
  simp only [Bool.true_eq_false, if_false]
  rcases h with h | h
  · rw [h]
  · cases hu : s.userIndexMap u
    · rfl
    · rw [h]

/-- Witness for C7: a freshly built model has seen no identifier, and
`predict` on it returns the fallback. -/
theorem c7_predict_fallback_witness :
    predict builtState (r"x") 5 = Except.ok fallbackRating :=
  c7_predict_fallback builtState (r"x") 5 rfl (Or.inl rfl)

/-- C10: any priority string other than `high` and `medium` — including
strings outside the declared set — is mapped to ordinal 1 by
`getPriorityValue`, i.e. ordered as low priority rather than rejected. -/
theorem c10_priority_default (s : String) (h1 : s ≠ r"high")
    (h2 : s ≠ r"medium") : getPriorityValue s = 1 := by
  unfold getPriorityValue
  rw [if_neg h1, if_neg h2]
  split
  · rfl
  · rfl

/-- Witness for C10: the unrecognized priority string `urgent` gets ordinal
1. -/
theorem c10_priority_default_witness : getPriorityValue (r"urgent") = 1 :=
  c10_priority_default (r"urgent") (by decide) (by decide)

/-- On a duplicate-free list whose elements avoid `seen`, first-occurrence
deduplication is the identity. -/
theorem firstDedupAux_eq_self {α : Type} [DecidableEq α] :
    ∀ (l seen : List α), l.Nodup → (∀ x ∈ l, x ∉ seen) →
      firstDedupAux seen l = l := by
  intro l
  induction l with
  | nil =>
    intro seen _ _
    rfl
  | cons x xs ih =>
    intro seen hnd hs
    obtain ⟨hx, hxs⟩ := List.nodup_cons.mp hnd
    simp only [firstDedupAux]
    rw [if_neg (hs x (List.mem_cons_self x xs))]
    congr 1
    apply ih (x :: seen) hxs
    intro y hy
    simp only [List.mem_cons]
    push_neg
    exact ⟨fun hyx => hx (hyx ▸ hy), hs y (List.mem_cons_of_mem x hy)⟩

/-- On a duplicate-free list, `firstDedup` is the identity. -/
theorem firstDedup_eq_self {α : Type} [DecidableEq α] {l : List α}
    (h : l.Nodup) : firstDedup l = l :=
  firstDedupAux_eq_self l [] h (by simp)

/-- Identifiers outside the assigned list keep their previous mapping. -/
theorem assignFrom_not_mem {α : Type} [DecidableEq α] :
    ∀ (ids : List α) (i : ℕ) (m : α → Option ℕ) (k : α), k ∉ ids →
      assignFrom i ids m k = m k := by
  intro ids
  induction ids with
  | nil =>
    intro i m k _
    rfl
  | cons a as ih =>
    intro i m k hk
    simp only [List.mem_cons] at hk
    push_neg at hk
    simp only [assignFrom]
    rw [ih (i + 1) (setIdx m a i) k hk.2]
    simp [setIdx, hk.1]

/-- On a duplicate-free list, the element at position `j` ends up mapped to
index `i + j` after `assignFrom i`. -/
theorem assignFrom_get {α : Type} [DecidableEq α] :
    ∀ (ids : List α) (i j : ℕ) (m : α → Option ℕ) (h : j < ids.length),
      ids.Nodup → assignFrom i ids m (ids.get ⟨j, h⟩) = some (i + j) := by
  intro ids
  induction ids with
  | nil =>
    intro i j m h _
    simp at h
  | cons a as ih =>
    intro i j m h hnd
    obtain ⟨ha, has⟩ := List.nodup_cons.mp hnd
    cases j with
    | zero =>
      simp only [List.get, assignFrom]
      rw [assignFrom_not_mem as (i + 1) (setIdx m a i) a ha]
      simp [setIdx]
    | succ k =>
      simp only [List.get, assignFrom]
      have hk : k < as.length := Nat.lt_of_succ_lt_succ h
      rw [ih (i + 1) k (setIdx m a i) hk has]
      congr 1
      omega

/-- C1 (amended): the mapping is rebuilt per call, not append-only.  Each
`incrementalTrain` call on an idle built model assigns every distinct user
of its own batch the index equal to its position in the batch (overwriting
any earlier assignment), while users absent from the batch keep their
previous mapping.  Indices are therefore reused across calls, as
`c1_counterexample` exhibits. -/
theorem c1_index_assignment (s : MFState) (rs : List URating)
    (hb : s.modelBuilt = true) (ht : s.isTraining = false)
    (hnd : (rs.map (fun r => r.userId)).Nodup) :
    ∃ st, incrementalTrain s rs = Except.ok st ∧
      (∀ (j : ℕ) (h : j < (rs.map (fun r => r.userId)).length),
        st.userIndexMap ((rs.map (fun r => r.userId)).get ⟨j, h⟩) = some j) ∧
      (∀ u, u ∉ rs.map (fun r => r.userId) →
        st.userIndexMap u = s.userIndexMap u) := by
  refine ⟨prepareTrainingData rs s, ?_, ?_, ?_⟩
  · unfold incrementalTrain
    rw [hb, ht]
    rfl
  · intro j h
    show assignFrom 0 (firstDedup (rs.map (fun r => r.userId)))
      s.userIndexMap ((rs.map (fun r => r.userId)).get ⟨j, h⟩) = some j
    rw [firstDedup_eq_self hnd]
    have := assignFrom_get (rs.map (fun r => r.userId)) 0 j s.userIndexMap h hnd
    rw [this]
    simp
  · intro u hu
    show assignFrom 0 (firstDedup (rs.map (fun r => r.userId)))
      s.userIndexMap u = s.userIndexMap u
    rw [firstDedup_eq_self hnd]
    exact assignFrom_not_mem (rs.map (fun r => r.userId)) 0 s.userIndexMap u hu

/-- Witness for C1 (amended): on the two-user batch, users `a` and `b`
receive indices 0 and 1 and unseen users stay unmapped. -/
theorem c1_index_assignment_witness :
    ∃ st, incrementalTrain builtState batchA = Except.ok st ∧
      (∀ (j : ℕ) (h : j < (batchA.map (fun r => r.userId)).length),
        st.userIndexMap ((batchA.map (fun r => r.userId)).get ⟨j, h⟩) =
          some j) ∧
      (∀ u, u ∉ batchA.map (fun r => r.userId) →
        st.userIndexMap u = builtState.userIndexMap u) :=
  c1_index_assignment builtState batchA rfl rfl (by decide)

/-- C5 (amended): on a built model, `batchPredict` returns one prediction
per valid pair — invalid pairs are dropped, not replaced in place — except
that when no pair is valid the output is the input length worth of fallback
values. -/
theorem c5_batchPredict_length (s : MFState) (pairs : List (String × ℤ))
    (hb : s.modelBuilt = true) :
    Except.map List.length (batchPredict s pairs) =
      Except.ok (if (pairs.filter (fun p => isValidPair s p)).length = 0
        then pairs.length
        else (pairs.filter (fun p => isValidPair s p)).length) := by
  by_cases h : (pairs.filter (fun p => isValidPair s p)).length = 0
  · simp [batchPredict, hb, h, Except.map]
  · simp [batchPredict, hb, h, Except.map]

/-- Witness for C5 (amended): on the seeded model, the two-pair input with
one valid pair yields a single prediction. -/
theorem c5_batchPredict_length_witness :
    Except.map List.length (batchPredict seededState [(r"a", 1), (r"b", 2)]) =
      Except.ok (if (([(r"a", (1 : ℤ)), (r"b", 2)] : List (String × ℤ)).filter
          (fun p => isValidPair seededState p)).length = 0
        then ([(r"a", (1 : ℤ)), (r"b", 2)] : List (String × ℤ)).length
        else (([(r"a", (1 : ℤ)), (r"b", 2)] : List (String × ℤ)).filter
          (fun p => isValidPair seededState p)).length) :=
  c5_batchPredict_length seededState [(r"a", 1), (r"b", 2)] rfl

/-- C6 (amended): the four weights are always non-negative, and they sum to
exactly 1 in the three tiers below 100 ratings; in the tier of 100 or more
ratings the sum differs from 1 in general, as `c6_counterexample` shows. -/
theorem c6_weights_nonneg_sum (p : UserProfile) :
    (0 ≤ (calculateWeights p).content ∧
      0 ≤ (calculateWeights p).collaborative ∧
      0 ≤ (calculateWeights p).popularity ∧
      0 ≤ (calculateWeights p).diversity) ∧
    (p.ratings.length < 100 → wSum (calculateWeights p) = 1) := by
  by_cases h1 : p.ratings.length < 5
  · constructor
    · simp only [calculateWeights, if_pos h1]
      norm_num
    · intro _
      simp only [wSum, calculateWeights, if_pos h1]
      norm_num
  · by_cases h2 : p.ratings.length < 20
    · constructor
      · simp only [calculateWeights, if_neg h1, if_pos h2]
        norm_num
      · intro _
        simp only [wSum, calculateWeights, if_neg h1, if_pos h2]
        norm_num
    · by_cases h3 : p.ratings.length < 100
      · constructor
        · simp only [calculateWeights, if_neg h1, if_neg h2, if_pos h3]
          norm_num
        · intro _
          simp only [wSum, calculateWeights, if_neg h1, if_neg h2, if_pos h3]
          norm_num
      · have hn : (100 : ℚ) ≤ (p.ratings.length : ℚ) := by
          exact_mod_cast Nat.le_of_not_lt h3
        constructor
        · simp only [calculateWeights, if_neg h1, if_neg h2, if_neg h3]
          refine ⟨by norm_num, ?_, by norm_num, ?_⟩
          · apply le_min
            · norm_num
            · nlinarith
          · split
            · norm_num
            · norm_num
        · intro hcon
          exact absurd hcon h3

/-- Witness for C6 (amended): a three-rating profile has non-negative
weights summing to 1. -/
theorem c6_weights_nonneg_sum_witness :
    (0 ≤ (calculateWeights ⟨[5, 6, 7], []⟩).content ∧
      0 ≤ (calculateWeights ⟨[5, 6, 7], []⟩).collaborative ∧
      0 ≤ (calculateWeights ⟨[5, 6, 7], []⟩).popularity ∧
      0 ≤ (calculateWeights ⟨[5, 6, 7], []⟩).diversity) ∧
    wSum (calculateWeights ⟨[5, 6, 7], []⟩) = 1 :=
  ⟨(c6_weights_nonneg_sum ⟨[5, 6, 7], []⟩).1,
    (c6_weights_nonneg_sum ⟨[5, 6, 7], []⟩).2 (by decide)⟩

/-- Stable insertion adds exactly one element to the length. -/
theorem length_insSorted (a : OLJob) :
    ∀ l : List OLJob, (insSorted a l).length = l.length + 1 := by
  intro l
  induction l with
  | nil => rfl
  | cons b bs ih =>
    simp only [insSorted]
    split
    · simp
    · simp [ih]

/-- The comparator sort fold preserves total length. -/
theorem length_foldl_insSorted :
    ∀ (l acc : List OLJob),
      (List.foldl (fun acc j => insSorted j acc) acc l).length =
        acc.length + l.length := by
  intro l
  induction l with
  | nil =>
    intro acc
    simp
  | cons b bs ih =>
    intro acc
    simp only [List.foldl]
    rw [ih (insSorted b acc), length_insSorted]
    simp only [List.length_cons]
    omega

/-- `sortQueueByPriority` preserves the queue length. -/
theorem length_sortQueueByPriority (l : List OLJob) :
    (sortQueueByPriority l).length = l.length := by
  unfold sortQueueByPriority
  rw [length_foldl_insSorted]
  simp

/-- Membership in a stable insertion. -/
theorem mem_insSorted {a x : OLJob} {l : List OLJob} :
    x ∈ insSorted a l ↔ x = a ∨ x ∈ l := by
  induction l with
  | nil => simp [insSorted]
  | cons b bs ih =>
    simp only [insSorted]
    split
    · simp [List.mem_cons]
    · simp only [List.mem_cons, ih]
      tauto

/-- The comparator sort fold keeps every element of the accumulator and the
input. -/
theorem mem_foldl_insSorted {x : OLJob} :
    ∀ (l acc : List OLJob), x ∈ acc ∨ x ∈ l →
      x ∈ List.foldl (fun acc j => insSorted j acc) acc l := by
  intro l
  induction l with
  | nil =>
    intro acc h
    rcases h with h | h
    · exact h
    · simp at h
  | cons b bs ih =>
    intro acc h
    simp only [List.foldl]
    apply ih (insSorted b acc)
    rcases h with h | h
    · exact Or.inl (mem_insSorted.mpr (Or.inr h))
    · rcases List.mem_cons.mp h with hb | hbs
      · exact Or.inl (mem_insSorted.mpr (Or.inl hb))
      · exact Or.inr hbs

/-- Every queued job survives `sortQueueByPriority`. -/
theorem mem_sortQueueByPriority {x : OLJob} {l : List OLJob} (h : x ∈ l) :
    x ∈ sortQueueByPriority l :=
  mem_foldl_insSorted l [] (Or.inr h)

/-- C9 (amended): ingestion performs no rating-range validation.  For every
rating value — in range or not — `processNewRating` writes the value to the
point-prediction cache and enqueues the update job (shown here below the
capacity and batch-trigger limits, where the queue is directly observable);
no rejection path exists. -/
theorem c9_no_range_validation (s : OLState) (u : String) (m : ℤ) (r0 : ℚ)
    (p : Priority) (ts : ℕ)
    (hcap : s.queue.length + 1 ≤ s.maxQueueSize)
    (hth : s.queue.length + 1 < s.updateThreshold)
    (hp : p ≠ Priority.high) :
    (⟨u, m, r0, p, ts⟩ : OLJob) ∈ (processNewRating s u m r0 p ts).queue ∧
    (processNewRating s u m r0 p ts).cache (u, m) = some r0 := by
  have hq1len :
      (sortQueueByPriority (s.queue ++ [(⟨u, m, r0, p, ts⟩ : OLJob)])).length =
        s.queue.length + 1 := by
    rw [length_sortQueueByPriority]
    simp
  have hq2 : enqueueWithEviction s.maxQueueSize s.queue
      (⟨u, m, r0, p, ts⟩ : OLJob) =
      sortQueueByPriority (s.queue ++ [(⟨u, m, r0, p, ts⟩ : OLJob)]) := by
    unfold enqueueWithEviction
    rw [if_neg]
    rw [hq1len]
    omega
  have hcond : ¬ (s.updateThreshold ≤
      (enqueueWithEviction s.maxQueueSize s.queue
        (⟨u, m, r0, p, ts⟩ : OLJob)).length ∨ p = Priority.high) := by
    push_neg
    refine ⟨?_, hp⟩
    rw [hq2, hq1len]
    omega
  unfold processNewRating
  rw [if_neg hcond]
  constructor
  · rw [hq2]
    apply mem_sortQueueByPriority
    simp
  · simp

/-- Witness for C9 (amended): the idle coordinator accepts the out-of-range
rating 100 for user `u`, movie 1. -/
theorem c9_no_range_validation_witness :
    (⟨r"u", 1, 100, Priority.medium, 0⟩ : OLJob) ∈
      (processNewRating idleCoordinator (r"u") 1 100 Priority.medium 0).queue ∧
    (processNewRating idleCoordinator (r"u") 1 100 Priority.medium 0).cache
      (r"u", 1) = some 100 :=
  c9_no_range_validation idleCoordinator (r"u") 1 100 Priority.medium 0
    (by decide) (by decide) (by decide)

end Cinematch
